import Mathlib

/-!
# Verification of the Alfie integration credential-reconciliation module

Shallow embedding of the reconciliation loop implemented in the repository's
integration-sync source file: the zod snapshot schema
(`AlfieIntegrationSnapshotSchema`), the snapshot fetcher
(`fetchIntegrationSnapshot`), the local state store (`readState`), the
per-account import loop and state persistence (`syncAlfieIntegrationsOnce`),
and the interval scheduler (`startAlfieIntegrationSyncIfEnabled`).

External effects (the HTTP fetch, the `gog` subprocess, the file system and
the wall clock) are passed in explicitly as oracle values, so every function
is pure and executable.  JavaScript strings are modelled as Lean `String`;
`trim`/`toLowerCase` are modelled by `String.trim`/`String.toLower` (the
claims only exercise ASCII data, where the two agree).
-/

/-- JSON values, as produced by a successful `JSON.parse`.  Numbers are
modelled as `Int`; no claim inspects a numeric payload. -/
inductive Json where
  | null : Json
  | bool (b : Bool) : Json
  | str (s : String) : Json
  | num (n : Int) : Json
  | arr (elems : List Json) : Json
  | obj (fields : List (String × Json)) : Json

/-- Property lookup on a JSON object (JavaScript objects have unique keys;
we read the first binding). -/
def lookupField (fields : List (String × Json)) (key : String) : Option Json :=
  (fields.find? (fun f => f.1 = key)).map (·.2)

/-- `true` exactly on `Json.obj` values: mirrors the JavaScript test
`parsed && typeof parsed === "object" && !Array.isArray(parsed)`. -/
def jsonIsObj : Json → Bool
  | .obj _ => true
  | _ => false

/-! ## The zod snapshot schema

Each field parser takes the result of `lookupField` (so a missing key is
`none` and fails, matching zod's required-by-default fields).  Unknown extra
keys are ignored, matching zod's default stripping behaviour. -/

/-- `z.string().min(1)` applied to a looked-up field. -/
def parseNonEmptyString : Option Json → Option String
  | some (.str s) => if s = "" then none else some s
  | _ => none

/-- `z.string().nullable()` applied to a looked-up field. -/
def parseStringOrNull : Option Json → Option (Option String)
  | some .null => some none
  | some (.str s) => some (some s)
  | _ => none

/-- `z.boolean()` applied to a looked-up field. -/
def parseBoolField : Option Json → Option Bool
  | some (.bool b) => some b
  | _ => none

/-- `z.literal(true)` applied to a looked-up field (the top-level `ok` field). -/
def parseLiteralTrue : Option Json → Option Unit
  | some (.bool true) => some ()
  | _ => none

/-- `z.array(z.string()).nullable()` applied to a looked-up field (`scopes`). -/
def parseScopes : Option Json → Option (Option (List String))
  | some .null => some none
  | some (.arr xs) =>
      (xs.mapM (fun j => match j with | Json.str s => some s | _ => none)).map some
  | _ => none

/-- One element of `integrations.google.accounts`, after validation. -/
structure GoogleAccount where
  id : String
  email : String
  refreshToken : String
  scopes : Option (List String)
  updatedAtIso : String
deriving DecidableEq, Repr

/-- The `integrations.google` object, after validation. -/
structure GoogleIntegration where
  configured : Bool
  clientId : Option String
  clientSecret : Option String
  accounts : List GoogleAccount
deriving DecidableEq, Repr

/-- The `integrations` object, after validation. -/
structure Integrations where
  google : GoogleIntegration
deriving DecidableEq, Repr

/-- A validated snapshot (`z.infer<typeof AlfieIntegrationSnapshotSchema>`).
The literal field `ok : true` carries no information and is not stored. -/
structure AlfieIntegrationSnapshot where
  tenantId : String
  tenantStatus : String
  version : String
  integrations : Integrations
deriving DecidableEq, Repr

/-- Validates one element of the `accounts` array. -/
def parseAccount : Json → Option GoogleAccount
  | .obj fields =>
      match parseNonEmptyString (lookupField fields "id"),
            parseNonEmptyString (lookupField fields "email"),
            parseNonEmptyString (lookupField fields "refreshToken"),
            parseScopes (lookupField fields "scopes"),
            parseNonEmptyString (lookupField fields "updatedAtIso") with
      | some id, some email, some refreshToken, some scopes, some updatedAtIso =>
          some { id, email, refreshToken, scopes, updatedAtIso }
      | _, _, _, _, _ => none
  | _ => none

/-- Validates the `accounts` array element-wise (`z.array(...)` of the
account object schema): every element must validate. -/
def parseAccountList : List Json → Option (List GoogleAccount)
  | [] => some []
  | j :: rest =>
      match parseAccount j, parseAccountList rest with
      | some a, some as => some (a :: as)
      | _, _ => none

/-- Validates the `integrations.google` object. -/
def parseGoogleIntegration : Option Json → Option GoogleIntegration
  | some (.obj fields) =>
      match parseBoolField (lookupField fields "configured"),
            parseStringOrNull (lookupField fields "clientId"),
            parseStringOrNull (lookupField fields "clientSecret"),
            (match lookupField fields "accounts" with
             | some (.arr xs) => parseAccountList xs
             | _ => none) with
      | some configured, some clientId, some clientSecret, some accounts =>
          some { configured, clientId, clientSecret, accounts }
      | _, _, _, _ => none
  | _ => none

/-- Validates the `integrations` object. -/
def parseIntegrations : Option Json → Option Integrations
  | some (.obj fields) =>
      match parseGoogleIntegration (lookupField fields "google") with
      | some google => some { google }
      | none => none
  | _ => none

/-- `AlfieIntegrationSnapshotSchema.safeParse`: the whole validated snapshot,
or `none` on any shape violation. -/
def safeParseSnapshot : Json → Option AlfieIntegrationSnapshot
  | .obj fields =>
      match parseLiteralTrue (lookupField fields "ok"),
            parseNonEmptyString (lookupField fields "tenantId"),
            parseNonEmptyString (lookupField fields "tenantStatus"),
            parseNonEmptyString (lookupField fields "version"),
            parseIntegrations (lookupField fields "integrations") with
      | some _, some tenantId, some tenantStatus, some version, some integrations =>
          some { tenantId, tenantStatus, version, integrations }
      | _, _, _, _, _ => none
  | _ => none

/-! ## The snapshot fetcher -/

/-- Outcome of the HTTP request made by `fetchIntegrationSnapshot`.
`failure` is a rejected promise (network error, or the `AbortSignal.timeout`
firing; a body-read failure is of the same kind).  `response` carries the
status code and the result of `JSON.parse` on the body text (`none` when
`JSON.parse` throws). -/
inductive FetchOutcome where
  | failure (err : String) : FetchOutcome
  | response (status : Nat) (body : Option Json) : FetchOutcome

/-- `Response.ok`: status in the inclusive range 200–299. -/
def statusOk (status : Nat) : Bool :=
  200 ≤ status && status ≤ 299

/-- The snapshot fetcher.  In the source, the `try` block begins only after
`await fetch(...)` and `await res.text()`, so a rejected fetch propagates to
the caller: it is modelled as `Except.error`.  A non-2xx response, an
unparseable body, or a schema-invalid body is logged and returns `null`,
modelled as `Except.ok none`. -/
def fetchIntegrationSnapshot (outcome : FetchOutcome) :
    Except String (Option AlfieIntegrationSnapshot) :=
  match outcome with
  | .failure err => .error err
  | .response status body =>
      if !statusOk status then .ok none
      else
        match body with
        | none => .ok none
        | some j => .ok (safeParseSnapshot j)

/-! ## The local state store -/

/-- The per-email watermark map `Record<string, { updatedAtIso: string }>`;
an entry's single-field record is represented by the field itself. -/
abbrev GoogleMap := List (String × String)

/-- JavaScript property read `m[k]?.updatedAtIso` on the watermark map. -/
def mapGet (m : GoogleMap) (k : String) : Option String :=
  (m.find? (fun e => e.1 = k)).map (·.2)

/-- JavaScript property write `m[k] = { updatedAtIso := v }`: overwrite the
existing binding in place, or append a new one. -/
def mapSet (m : GoogleMap) (k : String) (v : String) : GoogleMap :=
  match m with
  | [] => [(k, v)]
  | (k', v') :: rest => if k' = k then (k, v) :: rest else (k', v') :: mapSet rest k v

/-- The persisted `AlfieIntegrationsState`.  `extra` holds any unknown
top-level fields of the stored JSON object: the TypeScript type is produced
by an unvalidated cast, and the object spread `{ ...state }` in the write
path preserves such fields. -/
structure AlfieIntegrationsState where
  version : Option String
  google : Option GoogleMap
  syncedAtIso : Option String
  extra : List (String × Json)

/-- The empty state `{}` that `readState` degrades to. -/
def emptyState : AlfieIntegrationsState :=
  { version := none, google := none, syncedAtIso := none, extra := [] }

/-- Outcome of the state-file read inside `readState`.  `readError` is a
rejected `fs.readFile` (missing or unreadable file); `content` carries the
result of `JSON.parse` on the file text (`none` when `JSON.parse` throws). -/
inductive ReadOutcome where
  | readError : ReadOutcome
  | content (json : Option Json) : ReadOutcome

/-- The unvalidated cast `parsed as AlfieIntegrationsState`, read field by
field.  The cast performs no validation; a stored field that does not have
its declared TypeScript type is read as absent (for `version` this matches
the engine's use: a non-string stored `version` is never strictly equal to
the snapshot's string version). -/
def decodeState (fields : List (String × Json)) : AlfieIntegrationsState :=
  { version :=
      match lookupField fields "version" with
      | some (.str s) => some s
      | _ => none
    google :=
      match lookupField fields "google" with
      | some (.obj entries) =>
          some (entries.filterMap (fun e =>
            match e.2 with
            | .obj ef =>
                match lookupField ef "updatedAtIso" with
                | some (.str s) => some (e.1, s)
                | _ => none
            | _ => none))
      | _ => none
    syncedAtIso :=
      match lookupField fields "syncedAtIso" with
      | some (.str s) => some s
      | _ => none
    extra :=
      fields.filter (fun f =>
        f.1 != "version" && f.1 != "google" && f.1 != "syncedAtIso") }

/-- `readState`: a failed read or a `JSON.parse` throw is caught and yields
`{}`; a parsed value that is falsy, not of `typeof "object"`, or an array
yields `{}`; only a JSON object is cast to the state type. -/
def readState : ReadOutcome → AlfieIntegrationsState
  | .readError => emptyState
  | .content none => emptyState
  | .content (some j) =>
      match j with
      | .obj fields => decodeState fields
      | _ => emptyState

/-! ## The credential importer and the per-account loop -/

/-- `importGogRefreshToken`'s result: exit code 0 is `ok`; a non-zero exit
carries the tool-reported error text. -/
inductive CredentialImportResult where
  | ok : CredentialImportResult
  | fail (error : String) : CredentialImportResult
deriving DecidableEq, Repr

/-- JavaScript `String.prototype.trim`: drop leading and trailing
whitespace.  Written on the character list (rather than Lean's
byte-position-based `String.trim`) so that it reduces definitionally on
literals; the two agree on the data the claims exercise. -/
def jsTrim (s : String) : String :=
  String.mk (((s.data.dropWhile Char.isWhitespace).reverse.dropWhile
    Char.isWhitespace).reverse)

/-- Email normalization applied to every snapshot account:
`acct.email.trim().toLowerCase()` (character-list form, ASCII lowering, as
JavaScript does on the ASCII data the claims exercise). -/
def normalizeEmail (s : String) : String :=
  String.mk ((jsTrim s).data.map Char.toLower)

/-- The account pre-processing in `syncAlfieIntegrationsOnce`: normalize each
email, then drop accounts whose normalized email is empty
(`.filter((acct) => Boolean(acct.email))`). -/
def normalizeAccounts (accounts : List GoogleAccount) : List GoogleAccount :=
  (accounts.map (fun a => { a with email := normalizeEmail a.email })).filter
    (fun a => a.email != "")

/-- Result of the `for (const acct of accounts)` loop: the final watermark
map, the `changed` flag, and the accounts for which `importGogRefreshToken`
was invoked, in order. -/
structure LoopResult where
  googleState : GoogleMap
  changed : Bool
  invocations : List GoogleAccount

/-- The import loop of `syncAlfieIntegrationsOnce`, with the external `gog`
tool abstracted as the `importer` oracle.  For each account: read
`googleState[acct.email]?.updatedAtIso ?? ""`; skip when that value is truthy
and equal to the account's `updatedAtIso`; otherwise invoke the importer, and
on success store the account's watermark and set `changed`. -/
def processAccounts (importer : GoogleAccount → CredentialImportResult) :
    List GoogleAccount → GoogleMap → Bool → LoopResult
  | [], m, c => { googleState := m, changed := c, invocations := [] }
  | a :: rest, m, c =>
      let prev := (mapGet m a.email).getD ""
      if prev ≠ "" ∧ prev = a.updatedAtIso then
        processAccounts importer rest m c
      else
        match importer a with
        | .fail _ =>
            let r := processAccounts importer rest m c
            { googleState := r.googleState, changed := r.changed,
              invocations := a :: r.invocations }
        | .ok =>
            let r := processAccounts importer rest (mapSet m a.email a.updatedAtIso) true
            { googleState := r.googleState, changed := r.changed,
              invocations := a :: r.invocations }

/-! ## The reconciliation engine -/

/-- The environment of one `syncAlfieIntegrationsOnce` call: configuration
gates and the outcomes of the external effects this cycle would perform.
`alfieMode` is `isTruthyEnvValue(process.env.ALFIE_MODE)`; `apiUrl` and
`gatewayToken` are the resolved raw values before trimming; `hasGog` is
`hasBinary("gog")`; `importResult` is the `gog` subprocess oracle; `nowIso`
is `new Date().toISOString()` at the persist point. -/
structure SyncEnv where
  alfieMode : Bool
  apiUrl : String
  gatewayToken : String
  hasGog : Bool
  fetch : FetchOutcome
  importResult : GoogleAccount → CredentialImportResult
  readOutcome : ReadOutcome
  nowIso : String

/-- The externally observable effects of one cycle: the client-credentials
file write performed by `ensureGogClientCredentials` (its
`client_id`/`client_secret` payload), the `gog` tool invocations in order,
and the `writeState` argument (`none` when no write happens). -/
structure SyncResult where
  credentialsWrite : Option (String × String)
  toolInvocations : List GoogleAccount
  stateWrite : Option AlfieIntegrationsState

/-- The effect-free result of a cycle that returns at one of the early
gates. -/
def noEffects : SyncResult :=
  { credentialsWrite := none, toolInvocations := [], stateWrite := none }

/-- The import loop of a cycle, started on `{ ...(state.google ?? {}) }` (a
copy of the stored watermark map, or empty when the stored state has none)
with `changed` initially `false`. -/
def cycleLoop (env : SyncEnv) (accounts : List GoogleAccount) : LoopResult :=
  processAccounts env.importResult accounts
    ((readState env.readOutcome).google.getD []) false

/-- The persistence condition of a cycle:
`changed || state.version !== snapshot.version`. -/
def writeCond (env : SyncEnv) (snapshot : AlfieIntegrationSnapshot)
    (accounts : List GoogleAccount) : Prop :=
  (cycleLoop env accounts).changed = true ∨
    (readState env.readOutcome).version ≠ some snapshot.version

instance (env : SyncEnv) (snapshot : AlfieIntegrationSnapshot)
    (accounts : List GoogleAccount) : Decidable (writeCond env snapshot accounts) := by
  unfold writeCond; infer_instance

/-- The tail of `syncAlfieIntegrationsOnce` once the gates have passed and a
non-empty normalized account list exists: write client credentials, read the
state, run the import loop over a copy of the stored watermark map, and
persist exactly when `changed || state.version !== snapshot.version`.  The
persisted object is `{ ...state, version, google: googleState, syncedAtIso:
new Date().toISOString() }`. -/
def runImportCycle (env : SyncEnv) (snapshot : AlfieIntegrationSnapshot)
    (accounts : List GoogleAccount) : SyncResult :=
  let google := snapshot.integrations.google
  let state := readState env.readOutcome
  let res := cycleLoop env accounts
  let stateWrite :=
    if writeCond env snapshot accounts then
      some { state with
               version := some snapshot.version,
               google := some res.googleState,
               syncedAtIso := some env.nowIso }
    else none
  { credentialsWrite := some (google.clientId.getD "", google.clientSecret.getD ""),
    toolInvocations := res.invocations,
    stateWrite := stateWrite }

/-- `syncAlfieIntegrationsOnce`.  Early-return gates mirror the source:
feature flag, trimmed URL and token, `gog` binary.  The awaited fetch is not
wrapped in a `try`, so a rejected fetch propagates (`Except.error`); a `null`
snapshot, an unconfigured Google integration, a falsy client id or secret
(null or empty string), or an empty normalized account list ends the cycle
with no effect. -/
def syncAlfieIntegrationsOnce (env : SyncEnv) : Except String SyncResult :=
  if !env.alfieMode then .ok noEffects
  else if jsTrim env.apiUrl = "" then .ok noEffects
  else if jsTrim env.gatewayToken = "" then .ok noEffects
  else if !env.hasGog then .ok noEffects
  else
    match fetchIntegrationSnapshot env.fetch with
    | .error e => .error e
    | .ok none => .ok noEffects
    | .ok (some snapshot) =>
        let google := snapshot.integrations.google
        if !google.configured || google.clientId.getD "" = "" || google.clientSecret.getD "" = "" then
          .ok noEffects
        else
          let accounts := normalizeAccounts google.accounts
          if accounts.isEmpty then .ok noEffects
          else .ok (runImportCycle env snapshot accounts)

/-! ## The scheduler -/

/-- Events of the interval scheduler set up by
`startAlfieIntegrationSyncIfEnabled`: a `tick` is the `setInterval` callback
firing; a `finish` is an in-flight `syncAlfieIntegrationsOnce` promise
settling. -/
inductive SchedulerEvent where
  | tick : SchedulerEvent
  | finish : SchedulerEvent

/-- The scheduler's in-flight cycle count.  The source's `setInterval`
callback is `void syncAlfieIntegrationsOnce().catch(...)`: it starts a new
cycle unconditionally, with no in-progress guard, so a `tick` always
increments the in-flight count. -/
def schedulerStep (inFlight : Nat) : SchedulerEvent → Nat
  | .tick => inFlight + 1
  | .finish => inFlight - 1

/-- In-flight cycle count after a sequence of scheduler events, starting
idle. -/
def inFlightAfter (events : List SchedulerEvent) : Nat :=
  events.foldl schedulerStep 0

/-- The state on disk after a cycle: the written state when the cycle
persisted, otherwise the unchanged stored state. -/
def finalState (env : SyncEnv) (r : SyncResult) : AlfieIntegrationsState :=
  match r.stateWrite with
  | some s => s
  | none => readState env.readOutcome

/-- The on-disk watermark map after a cycle (empty when absent, as the
engine reads it). -/
def finalGoogle (env : SyncEnv) (r : SyncResult) : GoogleMap :=
  (finalState env r).google.getD []

/-- The skip condition of the import loop for account `a` against watermark
map `m`: the stored value is truthy (non-empty) and equal to the account's
`updatedAtIso`. -/
def skipCond (m : GoogleMap) (a : GoogleAccount) : Prop :=
  (mapGet m a.email).getD "" ≠ "" ∧ (mapGet m a.email).getD "" = a.updatedAtIso

instance (m : GoogleMap) (a : GoogleAccount) : Decidable (skipCond m a) := by
  unfold skipCond; infer_instance

/-- All gate conditions of `syncAlfieIntegrationsOnce` up to and including
the non-empty normalized account list: a cycle satisfying these runs
the import loop. -/
structure ReachesLoop (env : SyncEnv) (snap : AlfieIntegrationSnapshot) : Prop where
  mode : env.alfieMode = true
  urlNonempty : jsTrim env.apiUrl ≠ ""
  tokenNonempty : jsTrim env.gatewayToken ≠ ""
  gog : env.hasGog = true
  fetched : fetchIntegrationSnapshot env.fetch = .ok (some snap)
  configured : snap.integrations.google.configured = true
  clientIdTruthy : snap.integrations.google.clientId.getD "" ≠ ""
  clientSecretTruthy : snap.integrations.google.clientSecret.getD "" ≠ ""
  accountsNonempty : normalizeAccounts snap.integrations.google.accounts ≠ []

/-! ## Concrete sample data

Concrete snapshots, bodies and environments used to instantiate the claim
theorems on executable inputs. -/

def importerOk : GoogleAccount → CredentialImportResult := fun _ => .ok

def importerFail : GoogleAccount → CredentialImportResult := fun _ => .fail "boom"

/-- Fails exactly for the account with (normalized) email `b@y.com`. -/
def importerFailB : GoogleAccount → CredentialImportResult :=
  fun a => if a.email = "b@y.com" then .fail "boom" else .ok

def sampleAccountJsonA : Json :=
  .obj [("id", .str "1"), ("email", .str " A@X.com"), ("refreshToken", .str "rA"),
        ("scopes", .null), ("updatedAtIso", .str "T2")]

def sampleAccountJsonB : Json :=
  .obj [("id", .str "2"), ("email", .str "b@y.com"), ("refreshToken", .str "rB"),
        ("scopes", .arr [.str "m"]), ("updatedAtIso", .str "T3")]

def sampleBody : Json :=
  .obj [("ok", .bool true), ("tenantId", .str "t"), ("tenantStatus", .str "active"),
        ("version", .str "v2"),
        ("integrations", .obj [("google", .obj
          [("configured", .bool true), ("clientId", .str "cid"),
           ("clientSecret", .str "cs"),
           ("accounts", .arr [sampleAccountJsonA, sampleAccountJsonB])])])]

def rawAccountA : GoogleAccount :=
  { id := "1", email := " A@X.com", refreshToken := "rA", scopes := none,
    updatedAtIso := "T2" }

def rawAccountB : GoogleAccount :=
  { id := "2", email := "b@y.com", refreshToken := "rB", scopes := some ["m"],
    updatedAtIso := "T3" }

def sampleSnap : AlfieIntegrationSnapshot :=
  { tenantId := "t", tenantStatus := "active", version := "v2",
    integrations := { google :=
      { configured := true, clientId := some "cid", clientSecret := some "cs",
        accounts := [rawAccountA, rawAccountB] } } }

def normAccountA : GoogleAccount := { rawAccountA with email := "a@x.com" }

def normAccountB : GoogleAccount := rawAccountB

/-- An environment whose gates all pass, fetching `body` with status 200. -/
def sampleEnv (body : Json) (imp : GoogleAccount → CredentialImportResult)
    (ro : ReadOutcome) (now : String) : SyncEnv :=
  { alfieMode := true, apiUrl := "https://api", gatewayToken := "tok",
    hasGog := true, fetch := .response 200 (some body), importResult := imp,
    readOutcome := ro, nowIso := now }

def c6StoredJson : Json :=
  .obj [("version", .str "v2"),
        ("google", .obj [("a@x.com", .obj [("updatedAtIso", .str "T2")])])]

def c6Env : SyncEnv := sampleEnv sampleBody importerOk (.content (some c6StoredJson)) "N6"

def c3Env : SyncEnv := sampleEnv sampleBody importerFailB .readError "N3"

def c3Result : SyncResult :=
  runImportCycle c3Env sampleSnap (normalizeAccounts sampleSnap.integrations.google.accounts)

def c10StoredJson : Json :=
  .obj [("version", .str "v1"),
        ("google", .obj [("old@z.com", .obj [("updatedAtIso", .str "T0")])]),
        ("custom", .num 7)]

def c10Env : SyncEnv := sampleEnv sampleBody importerOk (.content (some c10StoredJson)) "N10"

def c10Result : SyncResult :=
  runImportCycle c10Env sampleSnap (normalizeAccounts sampleSnap.integrations.google.accounts)

def c10Written : AlfieIntegrationsState :=
  { version := some "v2",
    google := some [("old@z.com", "T0"), ("a@x.com", "T2"), ("b@y.com", "T3")],
    syncedAtIso := some "N10", extra := [("custom", Json.num 7)] }

def dupAccountJson1 : Json :=
  .obj [("id", .str "1"), ("email", .str "e@x.com"), ("refreshToken", .str "r1"),
        ("scopes", .null), ("updatedAtIso", .str "T2")]

def dupAccountJson2 : Json :=
  .obj [("id", .str "2"), ("email", .str "e@x.com"), ("refreshToken", .str "r2"),
        ("scopes", .null), ("updatedAtIso", .str "T1")]

def dupBody : Json :=
  .obj [("ok", .bool true), ("tenantId", .str "t"), ("tenantStatus", .str "active"),
        ("version", .str "v1"),
        ("integrations", .obj [("google", .obj
          [("configured", .bool true), ("clientId", .str "cid"),
           ("clientSecret", .str "cs"),
           ("accounts", .arr [dupAccountJson1, dupAccountJson2])])])]

def dupSnap : AlfieIntegrationSnapshot :=
  { tenantId := "t", tenantStatus := "active", version := "v1",
    integrations := { google :=
      { configured := true, clientId := some "cid", clientSecret := some "cs",
        accounts :=
          [{ id := "1", email := "e@x.com", refreshToken := "r1", scopes := none,
             updatedAtIso := "T2" },
           { id := "2", email := "e@x.com", refreshToken := "r2", scopes := none,
             updatedAtIso := "T1" }] } } }

def c4StoredJson : Json :=
  .obj [("version", .str "v1"),
        ("google", .obj [("e@x.com", .obj [("updatedAtIso", .str "T1")])])]

def c4DupEnv : SyncEnv := sampleEnv dupBody importerOk (.content (some c4StoredJson)) "N4c"

def c4wEnv : SyncEnv := sampleEnv sampleBody importerOk .readError "N4"

def c5aEnv : SyncEnv := sampleEnv sampleBody importerFail .readError "N5"

def c5AfterState : AlfieIntegrationsState :=
  { version := some "v2", google := some [], syncedAtIso := some "N5", extra := [] }

def c5AfterJson : Json :=
  .obj [("version", .str "v2"), ("google", .obj []), ("syncedAtIso", .str "N5")]

def c5bEnv : SyncEnv := sampleEnv sampleBody importerFail (.content (some c5AfterJson)) "N5b"

def c5r1 : SyncResult :=
  runImportCycle c5aEnv sampleSnap (normalizeAccounts sampleSnap.integrations.google.accounts)

def c5r2 : SyncResult :=
  runImportCycle c5bEnv sampleSnap (normalizeAccounts sampleSnap.integrations.google.accounts)

def c5wAEnv : SyncEnv := sampleEnv sampleBody importerOk .readError "W5"

def c5wAfterJson : Json :=
  .obj [("version", .str "v2"),
        ("google", .obj [("a@x.com", .obj [("updatedAtIso", .str "T2")]),
                         ("b@y.com", .obj [("updatedAtIso", .str "T3")])]),
        ("syncedAtIso", .str "W5")]

def c5wBEnv : SyncEnv := sampleEnv sampleBody importerOk (.content (some c5wAfterJson)) "W5b"

def c5wR1 : SyncResult :=
  runImportCycle c5wAEnv sampleSnap (normalizeAccounts sampleSnap.integrations.google.accounts)

def c5wR2 : SyncResult :=
  runImportCycle c5wBEnv sampleSnap (normalizeAccounts sampleSnap.integrations.google.accounts)

def c8RawAcct1 : GoogleAccount :=
  { id := "g1", email := "  User@Example.com ", refreshToken := "r1",
    scopes := none, updatedAtIso := "T1" }

def c8RawAcct2 : GoogleAccount :=
  { id := "g1", email := "user@example.com", refreshToken := "r1",
    scopes := none, updatedAtIso := "T1" }

def c8Body1 : Json :=
  .obj [("ok", .bool true), ("tenantId", .str "t"), ("tenantStatus", .str "active"),
        ("version", .str "v1"),
        ("integrations", .obj [("google", .obj
          [("configured", .bool true), ("clientId", .str "cid"),
           ("clientSecret", .str "cs"),
           ("accounts", .arr [.obj
             [("id", .str "g1"), ("email", .str "  User@Example.com "),
              ("refreshToken", .str "r1"), ("scopes", .null),
              ("updatedAtIso", .str "T1")]])])])]

def c8Body2 : Json :=
  .obj [("ok", .bool true), ("tenantId", .str "t"), ("tenantStatus", .str "active"),
        ("version", .str "v1"),
        ("integrations", .obj [("google", .obj
          [("configured", .bool true), ("clientId", .str "cid"),
           ("clientSecret", .str "cs"),
           ("accounts", .arr [.obj
             [("id", .str "g1"), ("email", .str "user@example.com"),
              ("refreshToken", .str "r1"), ("scopes", .null),
              ("updatedAtIso", .str "T1")]])])])]

def c8Snap1 : AlfieIntegrationSnapshot :=
  { tenantId := "t", tenantStatus := "active", version := "v1",
    integrations := { google :=
      { configured := true, clientId := some "cid", clientSecret := some "cs",
        accounts := [c8RawAcct1] } } }

def c8Snap2 : AlfieIntegrationSnapshot :=
  { tenantId := "t", tenantStatus := "active", version := "v1",
    integrations := { google :=
      { configured := true, clientId := some "cid", clientSecret := some "cs",
        accounts := [c8RawAcct2] } } }

def c8Env1 : SyncEnv := sampleEnv c8Body1 importerOk .readError "M1"

def c8AfterJson : Json :=
  .obj [("version", .str "v1"),
        ("google", .obj [("user@example.com", .obj [("updatedAtIso", .str "T1")])]),
        ("syncedAtIso", .str "M1")]

def c8Env2 : SyncEnv := sampleEnv c8Body2 importerOk (.content (some c8AfterJson)) "M2"

def c8R1 : SyncResult :=
  runImportCycle c8Env1 c8Snap1 (normalizeAccounts c8Snap1.integrations.google.accounts)

def c8R2 : SyncResult :=
  runImportCycle c8Env2 c8Snap2 (normalizeAccounts c8Snap2.integrations.google.accounts)

def c9TopLevelGoogleFields : List (String × Json) :=
  [("ok", .bool true), ("tenantId", .str "t"), ("tenantStatus", .str "active"),
   ("version", .str "v1"),
   ("google", .obj [("configured", .bool true), ("clientId", .str "cid"),
     ("clientSecret", .str "cs"), ("accounts", .arr [sampleAccountJsonA])])]

def c9MissingOkFields : List (String × Json) :=
  [("tenantId", .str "t"), ("tenantStatus", .str "active"),
   ("version", .str "v1"),
   ("integrations", .obj [("google", .obj
     [("configured", .bool true), ("clientId", .str "cid"),
      ("clientSecret", .str "cs"), ("accounts", .arr [sampleAccountJsonA])])])]

/-! ## Helper lemmas: the watermark map -/

theorem mapGet_mapSet_self (m : GoogleMap) (k v : String) :
    mapGet (mapSet m k v) k = some v := by
  induction m with
  | nil => simp [mapGet, mapSet, List.find?]
  | cons e rest ih =>
      by_cases h : e.1 = k
      · simp [mapGet, mapSet, h, List.find?]
      · simp only [mapSet, if_neg h]
        simpa [mapGet, List.find?, h] using ih

theorem mapGet_mapSet_ne (m : GoogleMap) (k v k' : String) (h : k' ≠ k) :
    mapGet (mapSet m k v) k' = mapGet m k' := by
  induction m with
  | nil => simp [mapGet, mapSet, List.find?, Ne.symm h]
  | cons e rest ih =>
      by_cases he : e.1 = k
      · subst he
        simp [mapGet, mapSet, List.find?, Ne.symm h, h]
      · simp only [mapSet, if_neg he]
        by_cases he' : e.1 = k'
        · simp [mapGet, List.find?, he']
        · simpa [mapGet, List.find?, he'] using ih

theorem mapGet_mapSet_isSome (m : GoogleMap) (k v k' : String)
    (h : (mapGet m k').isSome = true) :
    (mapGet (mapSet m k v) k').isSome = true := by
  by_cases hk : k' = k
  · subst hk; simp [mapGet_mapSet_self]
  · rwa [mapGet_mapSet_ne m k v k' hk]

/-! ## Helper lemmas: the import loop -/

theorem processAccounts_nil (imp : GoogleAccount → CredentialImportResult)
    (m : GoogleMap) (c : Bool) :
    processAccounts imp [] m c = { googleState := m, changed := c, invocations := [] } :=
  rfl

theorem processAccounts_cons (imp : GoogleAccount → CredentialImportResult)
    (a : GoogleAccount) (rest : List GoogleAccount) (m : GoogleMap) (c : Bool) :
    processAccounts imp (a :: rest) m c =
      if skipCond m a then processAccounts imp rest m c
      else
        match imp a with
        | .fail _ =>
            let r := processAccounts imp rest m c
            { googleState := r.googleState, changed := r.changed,
              invocations := a :: r.invocations }
        | .ok =>
            let r := processAccounts imp rest (mapSet m a.email a.updatedAtIso) true
            { googleState := r.googleState, changed := r.changed,
              invocations := a :: r.invocations } :=
  rfl

theorem processAccounts_invocations_subset
    (imp : GoogleAccount → CredentialImportResult) (l : List GoogleAccount)
    (m : GoogleMap) (c : Bool) (a : GoogleAccount)
    (h : a ∈ (processAccounts imp l m c).invocations) : a ∈ l := by
  induction l generalizing m c with
  | nil => simp [processAccounts_nil] at h
  | cons b rest ih =>
      rw [processAccounts_cons] at h
      by_cases hs : skipCond m b
      · rw [if_pos hs] at h
        exact List.mem_cons_of_mem b (ih m c h)
      · rw [if_neg hs] at h
        cases him : imp b with
        | fail e =>
            rw [him] at h
            simp only [List.mem_cons] at h ⊢
            rcases h with h | h
            · exact Or.inl h
            · exact Or.inr (ih m c h)
        | ok =>
            rw [him] at h
            simp only [List.mem_cons] at h ⊢
            rcases h with h | h
            · exact Or.inl h
            · exact Or.inr (ih (mapSet m b.email b.updatedAtIso) true h)

theorem processAccounts_frame (imp : GoogleAccount → CredentialImportResult)
    (l : List GoogleAccount) (m : GoogleMap) (c : Bool) (k : String)
    (hk : k ∉ l.map (·.email)) :
    mapGet (processAccounts imp l m c).googleState k = mapGet m k := by
  induction l generalizing m c with
  | nil => rw [processAccounts_nil]
  | cons b rest ih =>
      simp only [List.map_cons, List.mem_cons, not_or] at hk
      obtain ⟨hkb, hkrest⟩ := hk
      rw [processAccounts_cons]
      by_cases hs : skipCond m b
      · rw [if_pos hs]; exact ih m c hkrest
      · rw [if_neg hs]
        cases him : imp b with
        | fail e => exact ih m c hkrest
        | ok =>
            have := ih (mapSet m b.email b.updatedAtIso) true hkrest
            rw [this, mapGet_mapSet_ne m b.email b.updatedAtIso k hkb]

theorem processAccounts_presence (imp : GoogleAccount → CredentialImportResult)
    (l : List GoogleAccount) (m : GoogleMap) (c : Bool) (k : String)
    (hk : (mapGet m k).isSome = true) :
    (mapGet (processAccounts imp l m c).googleState k).isSome = true := by
  induction l generalizing m c with
  | nil => rwa [processAccounts_nil]
  | cons b rest ih =>
      rw [processAccounts_cons]
      by_cases hs : skipCond m b
      · rw [if_pos hs]; exact ih m c hk
      · rw [if_neg hs]
        cases him : imp b with
        | fail e => exact ih m c hk
        | ok =>
            exact ih (mapSet m b.email b.updatedAtIso) true
              (mapGet_mapSet_isSome m b.email b.updatedAtIso k hk)

theorem processAccounts_changed_mono (imp : GoogleAccount → CredentialImportResult)
    (l : List GoogleAccount) (m : GoogleMap) :
    (processAccounts imp l m true).changed = true := by
  induction l generalizing m with
  | nil => rw [processAccounts_nil]
  | cons b rest ih =>
      rw [processAccounts_cons]
      by_cases hs : skipCond m b
      · rw [if_pos hs]; exact ih m
      · rw [if_neg hs]
        cases him : imp b with
        | fail e => exact ih m
        | ok => exact ih (mapSet m b.email b.updatedAtIso)

theorem processAccounts_changed_false (imp : GoogleAccount → CredentialImportResult)
    (l : List GoogleAccount) (m : GoogleMap) (c : Bool)
    (h : (processAccounts imp l m c).changed = false) :
    (processAccounts imp l m c).googleState = m ∧ c = false := by
  induction l generalizing m c with
  | nil => rw [processAccounts_nil] at h ⊢; exact ⟨rfl, h⟩
  | cons b rest ih =>
      rw [processAccounts_cons] at h ⊢
      by_cases hs : skipCond m b
      · rw [if_pos hs] at h ⊢; exact ih m c h
      · rw [if_neg hs] at h ⊢
        revert h
        cases him : imp b with
        | fail e =>
            intro h
            dsimp only at h ⊢
            exact ih m c h
        | ok =>
            intro h
            dsimp only at h
            rw [processAccounts_changed_mono] at h
            exact absurd h (by simp)

/-- When every account is already current (skip condition holds for all of
them against the starting map), the loop is a pure no-op: no invocation, no
map mutation, `changed` stays as it came in. -/
theorem processAccounts_all_skip (imp : GoogleAccount → CredentialImportResult)
    (l : List GoogleAccount) (m : GoogleMap) (c : Bool)
    (h : ∀ a ∈ l, skipCond m a) :
    processAccounts imp l m c = { googleState := m, changed := c, invocations := [] } := by
  induction l with
  | nil => rw [processAccounts_nil]
  | cons b rest ih =>
      rw [processAccounts_cons, if_pos (h b (List.mem_cons_self b rest))]
      exact ih (fun a ha => h a (List.mem_cons_of_mem b ha))

theorem skipCond_congr (m m' : GoogleMap) (a : GoogleAccount)
    (h : mapGet m a.email = mapGet m' a.email) : skipCond m a ↔ skipCond m' a := by
  unfold skipCond; rw [h]

theorem skipCond_iff (m : GoogleMap) (a : GoogleAccount) (h : a.updatedAtIso ≠ "") :
    skipCond m a ↔ mapGet m a.email = some a.updatedAtIso := by
  unfold skipCond
  cases hg : mapGet m a.email with
  | none => simp [Ne.symm h]
  | some v =>
      constructor
      · rintro ⟨_, hv⟩
        simp only [Option.getD_some] at hv
        rw [hv]
      · intro hv
        obtain rfl : v = a.updatedAtIso := by injection hv
        exact ⟨by simpa using h, rfl⟩

/-- With pairwise-distinct normalized emails, an account is among the tool
invocations of a cycle exactly when the skip condition against the starting
map fails for it. -/
theorem processAccounts_mem_invocations_iff
    (imp : GoogleAccount → CredentialImportResult) (l : List GoogleAccount)
    (m : GoogleMap) (c : Bool) (hnd : (l.map (·.email)).Nodup)
    (a : GoogleAccount) (ha : a ∈ l) :
    a ∈ (processAccounts imp l m c).invocations ↔ ¬ skipCond m a := by
  induction l generalizing m c with
  | nil => cases ha
  | cons b rest ih =>
      rw [List.map_cons, List.nodup_cons] at hnd
      obtain ⟨hb, hrest⟩ := hnd
      rw [processAccounts_cons]
      rcases List.mem_cons.mp ha with rfl | ha'
      · by_cases hs : skipCond m a
        · rw [if_pos hs]
          constructor
          · intro hmem
            exact absurd
              (List.mem_map_of_mem (·.email) (processAccounts_invocations_subset imp rest m c a hmem))
              hb
          · intro hns; exact absurd hs hns
        · rw [if_neg hs]
          cases him : imp a with
          | fail e => dsimp only; simp [hs]
          | ok => dsimp only; simp [hs]
      · have hae : a.email ≠ b.email := by
          intro h
          exact hb (h ▸ List.mem_map_of_mem (·.email) ha')
        have hane : a ≠ b := fun h => hae (by rw [h])
        by_cases hs : skipCond m b
        · rw [if_pos hs]
          exact ih m c hrest ha'
        · rw [if_neg hs]
          cases him : imp b with
          | fail e =>
              dsimp only
              rw [List.mem_cons]
              simp only [hane, false_or]
              exact ih m c hrest ha'
          | ok =>
              dsimp only
              rw [List.mem_cons]
              simp only [hane, false_or]
              rw [ih (mapSet m b.email b.updatedAtIso) true hrest ha']
              rw [skipCond_congr m (mapSet m b.email b.updatedAtIso) a
                (mapGet_mapSet_ne m b.email b.updatedAtIso a.email hae).symm]

/-- With pairwise-distinct normalized emails, an account whose import is not
a success (it is skipped, or the tool fails) keeps exactly its pre-cycle
watermark: present or absent. -/
theorem processAccounts_not_ok_unchanged
    (imp : GoogleAccount → CredentialImportResult) (l : List GoogleAccount)
    (m : GoogleMap) (c : Bool) (hnd : (l.map (·.email)).Nodup)
    (a : GoogleAccount) (ha : a ∈ l) (him : imp a ≠ .ok) :
    mapGet (processAccounts imp l m c).googleState a.email = mapGet m a.email := by
  induction l generalizing m c with
  | nil => cases ha
  | cons b rest ih =>
      rw [List.map_cons, List.nodup_cons] at hnd
      obtain ⟨hb, hrest⟩ := hnd
      rw [processAccounts_cons]
      rcases List.mem_cons.mp ha with rfl | ha'
      · by_cases hs : skipCond m a
        · rw [if_pos hs]
          exact processAccounts_frame imp rest m c a.email hb
        · rw [if_neg hs]
          cases hcase : imp a with
          | fail e =>
              dsimp only
              exact processAccounts_frame imp rest m c a.email hb
          | ok => exact absurd hcase him
      · have hae : a.email ≠ b.email := by
          intro h
          exact hb (h ▸ List.mem_map_of_mem (·.email) ha')
        by_cases hs : skipCond m b
        · rw [if_pos hs]
          exact ih m c hrest ha'
        · rw [if_neg hs]
          cases hcase : imp b with
          | fail e =>
              dsimp only
              exact ih m c hrest ha'
          | ok =>
              dsimp only
              rw [ih (mapSet m b.email b.updatedAtIso) true hrest ha']
              exact mapGet_mapSet_ne m b.email b.updatedAtIso a.email hae

/-- With pairwise-distinct normalized emails, an account that is due (skip
condition fails) and whose import succeeds has its watermark advanced to its
`updatedAtIso`, and the cycle's `changed` flag is set. -/
theorem processAccounts_ok_advanced
    (imp : GoogleAccount → CredentialImportResult) (l : List GoogleAccount)
    (m : GoogleMap) (c : Bool) (hnd : (l.map (·.email)).Nodup)
    (a : GoogleAccount) (ha : a ∈ l) (him : imp a = .ok) (hns : ¬ skipCond m a) :
    mapGet (processAccounts imp l m c).googleState a.email = some a.updatedAtIso ∧
      (processAccounts imp l m c).changed = true := by
  induction l generalizing m c with
  | nil => cases ha
  | cons b rest ih =>
      rw [List.map_cons, List.nodup_cons] at hnd
      obtain ⟨hb, hrest⟩ := hnd
      rw [processAccounts_cons]
      rcases List.mem_cons.mp ha with rfl | ha'
      · rw [if_neg hns]
        rw [him]
        dsimp only
        constructor
        · rw [processAccounts_frame imp rest (mapSet m a.email a.updatedAtIso) true a.email hb]
          exact mapGet_mapSet_self m a.email a.updatedAtIso
        · exact processAccounts_changed_mono imp rest (mapSet m a.email a.updatedAtIso)
      · have hae : a.email ≠ b.email := by
          intro h
          exact hb (h ▸ List.mem_map_of_mem (·.email) ha')
        by_cases hs : skipCond m b
        · rw [if_pos hs]
          exact ih m c hrest ha' hns
        · rw [if_neg hs]
          cases hcase : imp b with
          | fail e =>
              dsimp only
              exact ih m c hrest ha' hns
          | ok =>
              dsimp only
              have hns' : ¬ skipCond (mapSet m b.email b.updatedAtIso) a := by
                rw [← skipCond_congr m (mapSet m b.email b.updatedAtIso) a
                  (mapGet_mapSet_ne m b.email b.updatedAtIso a.email hae).symm]
                exact hns
              exact ih (mapSet m b.email b.updatedAtIso) true hrest ha' hns'

/-- When every import succeeds and normalized emails are pairwise distinct,
the final map stores every processed account's `updatedAtIso` under its
email. -/
theorem processAccounts_all_ok_current
    (imp : GoogleAccount → CredentialImportResult) (l : List GoogleAccount)
    (m : GoogleMap) (c : Bool) (hnd : (l.map (·.email)).Nodup)
    (hupd : ∀ a ∈ l, a.updatedAtIso ≠ "") (hok : ∀ a ∈ l, imp a = .ok) :
    ∀ a ∈ l, mapGet (processAccounts imp l m c).googleState a.email = some a.updatedAtIso := by
  induction l generalizing m c with
  | nil => intro a ha; cases ha
  | cons b rest ih =>
      rw [List.map_cons, List.nodup_cons] at hnd
      obtain ⟨hb, hrest⟩ := hnd
      intro a ha
      rw [processAccounts_cons]
      rcases List.mem_cons.mp ha with rfl | ha'
      · by_cases hs : skipCond m a
        · rw [if_pos hs]
          rw [processAccounts_frame imp rest m c a.email hb]
          exact (skipCond_iff m a (hupd a ha)).mp hs
        · rw [if_neg hs, hok a ha]
          dsimp only
          rw [processAccounts_frame imp rest (mapSet m a.email a.updatedAtIso) true a.email hb]
          exact mapGet_mapSet_self m a.email a.updatedAtIso
      · have hupd' : ∀ x ∈ rest, x.updatedAtIso ≠ "" :=
          fun x hx => hupd x (List.mem_cons_of_mem b hx)
        have hok' : ∀ x ∈ rest, imp x = .ok :=
          fun x hx => hok x (List.mem_cons_of_mem b hx)
        by_cases hs : skipCond m b
        · rw [if_pos hs]
          exact ih m c hrest hupd' hok' a ha'
        · rw [if_neg hs, hok b (List.mem_cons_self b rest)]
          dsimp only
          exact ih (mapSet m b.email b.updatedAtIso) true hrest hupd' hok' a ha'

/-- With pairwise-distinct normalized emails and schema-non-empty
`updatedAtIso` values, a set `changed` flag means the final watermark map
really differs from the starting one. -/
theorem processAccounts_changed_map_ne
    (imp : GoogleAccount → CredentialImportResult) (l : List GoogleAccount)
    (m : GoogleMap) (hnd : (l.map (·.email)).Nodup)
    (hupd : ∀ a ∈ l, a.updatedAtIso ≠ "")
    (h : (processAccounts imp l m false).changed = true) :
    (processAccounts imp l m false).googleState ≠ m := by
  induction l generalizing m with
  | nil => rw [processAccounts_nil] at h; exact absurd h (by simp)
  | cons b rest ih =>
      rw [List.map_cons, List.nodup_cons] at hnd
      obtain ⟨hb, hrest⟩ := hnd
      have hupd' : ∀ x ∈ rest, x.updatedAtIso ≠ "" :=
        fun x hx => hupd x (List.mem_cons_of_mem b hx)
      rw [processAccounts_cons] at h ⊢
      by_cases hs : skipCond m b
      · rw [if_pos hs] at h ⊢
        exact ih m hrest hupd' h
      · rw [if_neg hs] at h ⊢
        revert h
        cases hcase : imp b with
        | fail e =>
            intro h
            dsimp only at h ⊢
            exact ih m hrest hupd' h
        | ok =>
            intro h
            dsimp only
            intro heq
            have h1 : mapGet (processAccounts imp rest (mapSet m b.email b.updatedAtIso) true).googleState b.email
                = some b.updatedAtIso := by
              rw [processAccounts_frame imp rest (mapSet m b.email b.updatedAtIso) true b.email hb]
              exact mapGet_mapSet_self m b.email b.updatedAtIso
            have h2 : mapGet m b.email ≠ some b.updatedAtIso := by
              intro hEq
              exact hs ((skipCond_iff m b (hupd b (List.mem_cons_self b rest))).mpr hEq)
            rw [heq] at h1
            exact h2 h1

/-! ## Helper lemmas: the engine -/

/-- A cycle whose gates all pass runs the import loop on the normalized
account list: `syncAlfieIntegrationsOnce` unfolds to `runImportCycle`. -/
theorem sync_reaches_loop_eq {env : SyncEnv} {snap : AlfieIntegrationSnapshot}
    (h : ReachesLoop env snap) :
    syncAlfieIntegrationsOnce env =
      .ok (runImportCycle env snap (normalizeAccounts snap.integrations.google.accounts)) := by
  unfold syncAlfieIntegrationsOnce
  rw [h.fetched]
  rw [if_neg (by simp [h.mode]), if_neg h.urlNonempty, if_neg h.tokenNonempty,
    if_neg (by simp [h.gog])]
  dsimp only
  rw [if_neg (by simp [h.configured, h.clientIdTruthy, h.clientSecretTruthy])]
  rw [if_neg (by simp [List.isEmpty_iff, h.accountsNonempty])]

theorem runImportCycle_toolInvocations (env : SyncEnv)
    (snapshot : AlfieIntegrationSnapshot) (accounts : List GoogleAccount) :
    (runImportCycle env snapshot accounts).toolInvocations =
      (cycleLoop env accounts).invocations :=
  rfl

theorem runImportCycle_stateWrite_pos (env : SyncEnv)
    (snapshot : AlfieIntegrationSnapshot) (accounts : List GoogleAccount)
    (h : writeCond env snapshot accounts) :
    (runImportCycle env snapshot accounts).stateWrite =
      some { readState env.readOutcome with
               version := some snapshot.version,
               google := some (cycleLoop env accounts).googleState,
               syncedAtIso := some env.nowIso } := by
  unfold runImportCycle
  dsimp only
  rw [if_pos h]

theorem runImportCycle_stateWrite_neg (env : SyncEnv)
    (snapshot : AlfieIntegrationSnapshot) (accounts : List GoogleAccount)
    (h : ¬ writeCond env snapshot accounts) :
    (runImportCycle env snapshot accounts).stateWrite = none := by
  unfold runImportCycle
  dsimp only
  rw [if_neg h]


/-! ## Helper lemmas: schema validity -/

theorem parseNonEmptyString_ne (o : Option Json) (s : String)
    (h : parseNonEmptyString o = some s) : s ≠ "" := by
  cases o with
  | none => simp [parseNonEmptyString] at h
  | some j =>
      cases j with
      | str t =>
          by_cases ht : t = ""
          · simp [parseNonEmptyString, ht] at h
          · simp only [parseNonEmptyString, if_neg ht, Option.some.injEq] at h
            rw [← h]; exact ht
      | null => simp [parseNonEmptyString] at h
      | bool b => simp [parseNonEmptyString] at h
      | num n => simp [parseNonEmptyString] at h
      | arr xs => simp [parseNonEmptyString] at h
      | obj fs => simp [parseNonEmptyString] at h

theorem parseAccount_updatedAtIso_ne (j : Json) (a : GoogleAccount)
    (h : parseAccount j = some a) : a.updatedAtIso ≠ "" := by
  cases j with
  | null => simp [parseAccount] at h
  | bool b => simp [parseAccount] at h
  | str s => simp [parseAccount] at h
  | num n => simp [parseAccount] at h
  | arr xs => simp [parseAccount] at h
  | obj fields =>
      simp only [parseAccount] at h
      split at h
      · rename_i id email rt sc upd h1 h2 h3 h4 h5
        obtain rfl : _ = a := by injection h
        exact parseNonEmptyString_ne _ _ h5
      · exact absurd h (by simp)

theorem parseAccountList_mem (xs : List Json) (ys : List GoogleAccount)
    (h : parseAccountList xs = some ys) :
    ∀ a ∈ ys, ∃ j, parseAccount j = some a := by
  induction xs generalizing ys with
  | nil =>
      simp only [parseAccountList, Option.some.injEq] at h
      subst h; intro a ha; cases ha
  | cons x rest ih =>
      simp only [parseAccountList] at h
      split at h
      · rename_i a0 as0 h1 h2
        obtain rfl : _ = ys := by injection h
        intro a ha
        rcases List.mem_cons.mp ha with rfl | ha'
        · exact ⟨x, h1⟩
        · exact ih as0 h2 a ha'
      · exact absurd h (by simp)

theorem safeParseSnapshot_updated_ne (j : Json) (s : AlfieIntegrationSnapshot)
    (h : safeParseSnapshot j = some s) :
    ∀ a ∈ s.integrations.google.accounts, a.updatedAtIso ≠ "" := by
  cases j with
  | null => simp [safeParseSnapshot] at h
  | bool b => simp [safeParseSnapshot] at h
  | str t => simp [safeParseSnapshot] at h
  | num n => simp [safeParseSnapshot] at h
  | arr xs => simp [safeParseSnapshot] at h
  | obj fields =>
      simp only [safeParseSnapshot] at h
      split at h
      · rename_i u tid tst ver ints h1 h2 h3 h4 h5
        obtain rfl : _ = s := by injection h
        -- now dig into parseIntegrations h5
        revert h5
        generalize lookupField fields "integrations" = oint
        intro h5
        cases oint with
        | none => simp [parseIntegrations] at h5
        | some ji =>
            cases ji with
            | obj ifields =>
                simp only [parseIntegrations] at h5
                split at h5
                · rename_i g hg
                  obtain rfl : _ = ints := by injection h5
                  -- dig into parseGoogleIntegration hg
                  revert hg
                  generalize lookupField ifields "google" = og
                  intro hg
                  cases og with
                  | none => simp [parseGoogleIntegration] at hg
                  | some jg =>
                      cases jg with
                      | obj gfields =>
                          simp only [parseGoogleIntegration] at hg
                          split at hg
                          · rename_i conf cid csec accs hc1 hc2 hc3 hc4
                            obtain rfl : _ = g := by injection hg
                            -- hc4 : (match lookupField gfields "accounts" with ...) = some accs
                            revert hc4
                            generalize lookupField gfields "accounts" = oaccs
                            intro hc4
                            cases oaccs with
                            | none => simp at hc4
                            | some jv =>
                                cases jv with
                                | arr xs =>
                                    intro a ha
                                    obtain ⟨jx, hjx⟩ := parseAccountList_mem xs accs hc4 a ha
                                    exact parseAccount_updatedAtIso_ne jx a hjx
                                | null => simp at hc4
                                | bool b2 => simp at hc4
                                | str t2 => simp at hc4
                                | num n2 => simp at hc4
                                | obj o2 => simp at hc4
                          · exact absurd hg (by simp)
                      | null => simp [parseGoogleIntegration] at hg
                      | bool b => simp [parseGoogleIntegration] at hg
                      | str t => simp [parseGoogleIntegration] at hg
                      | num n => simp [parseGoogleIntegration] at hg
                      | arr zs => simp [parseGoogleIntegration] at hg
                · exact absurd h5 (by simp)
            | null => simp [parseIntegrations] at h5
            | bool b => simp [parseIntegrations] at h5
            | str t => simp [parseIntegrations] at h5
            | num n => simp [parseIntegrations] at h5
            | arr zs => simp [parseIntegrations] at h5
      · exact absurd h (by simp)

/-- A fetch that returns a snapshot obtained it from a successful schema
validation, so every account's `updatedAtIso` is non-empty
(`z.string().min(1)`). -/
theorem fetch_ok_some_updated_ne (o : FetchOutcome) (snap : AlfieIntegrationSnapshot)
    (h : fetchIntegrationSnapshot o = .ok (some snap)) :
    ∀ a ∈ snap.integrations.google.accounts, a.updatedAtIso ≠ "" := by
  cases o with
  | failure e => exact absurd h (by simp [fetchIntegrationSnapshot])
  | response status body =>
      unfold fetchIntegrationSnapshot at h
      cases hst : statusOk status with
      | false => simp [hst] at h
      | true =>
          simp only [hst, Bool.not_true, Bool.false_eq_true, if_false] at h
          cases body with
          | none => simp at h
          | some j =>
              simp only [Except.ok.injEq] at h
              exact safeParseSnapshot_updated_ne j snap h

/-- Email normalization keeps every other account field, in particular
`updatedAtIso`. -/
theorem normalizeAccounts_updated_ne (accounts : List GoogleAccount)
    (h : ∀ a ∈ accounts, a.updatedAtIso ≠ "") :
    ∀ a ∈ normalizeAccounts accounts, a.updatedAtIso ≠ "" := by
  intro a ha
  unfold normalizeAccounts at ha
  rw [List.mem_filter] at ha
  obtain ⟨hmem, _⟩ := ha
  obtain ⟨raw, hraw, rfl⟩ := List.mem_map.mp hmem
  exact h raw hraw

/-- In a cycle that reached the import loop, every processed account carries
a schema-validated non-empty `updatedAtIso`. -/
theorem reachesLoop_updated_ne {env : SyncEnv} {snap : AlfieIntegrationSnapshot}
    (h : ReachesLoop env snap) :
    ∀ a ∈ normalizeAccounts snap.integrations.google.accounts, a.updatedAtIso ≠ "" :=
  normalizeAccounts_updated_ne _ (fetch_ok_some_updated_ne env.fetch snap h.fetched)

/-! ## Helper lemmas: end-of-cycle state -/

/-- After a cycle that reached the loop, the on-disk state's `version` field
equals the snapshot's version: either it was just written with it, or no
write happened because (in particular) the stored version already matched. -/
theorem sync_finalState_version (env : SyncEnv) (snap : AlfieIntegrationSnapshot)
    (h : ReachesLoop env snap) (r : SyncResult)
    (hr : syncAlfieIntegrationsOnce env = .ok r) :
    (finalState env r).version = some snap.version := by
  rw [sync_reaches_loop_eq h] at hr
  obtain rfl : _ = r := by injection hr
  by_cases hw : writeCond env snap (normalizeAccounts snap.integrations.google.accounts)
  · unfold finalState
    rw [runImportCycle_stateWrite_pos _ _ _ hw]
  · unfold finalState
    rw [runImportCycle_stateWrite_neg _ _ _ hw]
    unfold writeCond at hw
    push_neg at hw
    exact hw.2

/-- After a cycle in which every invoked import succeeds (distinct
normalized emails), the on-disk watermark map holds every processed
account's `updatedAtIso`. -/
theorem sync_final_current (env : SyncEnv) (snap : AlfieIntegrationSnapshot)
    (h : ReachesLoop env snap)
    (hnd : ((normalizeAccounts snap.integrations.google.accounts).map (·.email)).Nodup)
    (hok : ∀ a ∈ normalizeAccounts snap.integrations.google.accounts,
      env.importResult a = .ok)
    (r : SyncResult) (hr : syncAlfieIntegrationsOnce env = .ok r) :
    ∀ a ∈ normalizeAccounts snap.integrations.google.accounts,
      mapGet (finalGoogle env r) a.email = some a.updatedAtIso := by
  have hupd := reachesLoop_updated_ne h
  rw [sync_reaches_loop_eq h] at hr
  obtain rfl : _ = r := by injection hr
  intro a ha
  by_cases hw : writeCond env snap (normalizeAccounts snap.integrations.google.accounts)
  · unfold finalGoogle finalState
    rw [runImportCycle_stateWrite_pos _ _ _ hw]
    dsimp only [Option.getD_some]
    exact processAccounts_all_ok_current env.importResult _
      ((readState env.readOutcome).google.getD []) false hnd hupd hok a ha
  · unfold finalGoogle finalState
    rw [runImportCycle_stateWrite_neg _ _ _ hw]
    unfold writeCond at hw
    push_neg at hw
    have hchf : (cycleLoop env (normalizeAccounts snap.integrations.google.accounts)).changed = false := by
      simpa using hw.1
    by_contra hne
    have hns : ¬ skipCond ((readState env.readOutcome).google.getD []) a :=
      fun hs => hne ((skipCond_iff _ a (hupd a ha)).mp hs)
    have hadv := processAccounts_ok_advanced env.importResult
      (normalizeAccounts snap.integrations.google.accounts)
      ((readState env.readOutcome).google.getD []) false hnd a ha (hok a ha) hns
    exact absurd (hadv.2.symm.trans hchf) (by simp)

/-- A cycle whose stored watermark map is already current for every
processed account, with the stored version matching, performs no tool
invocation and no state write. -/
theorem sync_second_noop (env : SyncEnv) (snap : AlfieIntegrationSnapshot)
    (h : ReachesLoop env snap) (r : SyncResult)
    (hr : syncAlfieIntegrationsOnce env = .ok r)
    (hcur : ∀ a ∈ normalizeAccounts snap.integrations.google.accounts,
      mapGet ((readState env.readOutcome).google.getD []) a.email = some a.updatedAtIso)
    (hver : (readState env.readOutcome).version = some snap.version) :
    r.toolInvocations = [] ∧ r.stateWrite = none := by
  have hupd := reachesLoop_updated_ne h
  rw [sync_reaches_loop_eq h] at hr
  obtain rfl : _ = r := by injection hr
  have hskip : ∀ a ∈ normalizeAccounts snap.integrations.google.accounts,
      skipCond ((readState env.readOutcome).google.getD []) a :=
    fun a ha => (skipCond_iff _ a (hupd a ha)).mpr (hcur a ha)
  have hloop : cycleLoop env (normalizeAccounts snap.integrations.google.accounts) =
      { googleState := (readState env.readOutcome).google.getD [],
        changed := false, invocations := [] } := by
    unfold cycleLoop
    exact processAccounts_all_skip env.importResult _ _ false hskip
  constructor
  · rw [runImportCycle_toolInvocations, hloop]
  · apply runImportCycle_stateWrite_neg
    unfold writeCond
    rw [hloop]
    simp [hver]

/-! ## Claim C1 -/

/-- C1 counterexample: a timed-out or network-failed HTTP request does NOT
yield `None` from `fetchIntegrationSnapshot`; the rejection propagates out
of the fetcher as an exception (the `fetch` await is outside the `try`
block), contradicting the claim as stated. -/
theorem alfie_c1_counterexample :
    fetchIntegrationSnapshot (FetchOutcome.failure "ETIMEDOUT") = Except.error "ETIMEDOUT" ∧
      fetchIntegrationSnapshot (FetchOutcome.failure "ETIMEDOUT") ≠ Except.ok none := by
  exact ⟨rfl, by simp [fetchIntegrationSnapshot]⟩

/-- C1 (amended): a timed-out or network-failed request propagates as an
exception out of `fetchIntegrationSnapshot` (it is caught and logged only by
the scheduler); a non-2xx response, an unparseable body, and a
schema-invalid body each yield `None` without an exception. -/
theorem alfie_c1_fetch_error_propagates :
    (∀ err : String,
      fetchIntegrationSnapshot (FetchOutcome.failure err) = Except.error err) ∧
    (∀ (status : Nat) (body : Option Json), statusOk status = false →
      fetchIntegrationSnapshot (FetchOutcome.response status body) = Except.ok none) ∧
    (∀ status : Nat, statusOk status = true →
      fetchIntegrationSnapshot (FetchOutcome.response status none) = Except.ok none) ∧
    (∀ (status : Nat) (j : Json), statusOk status = true →
      fetchIntegrationSnapshot (FetchOutcome.response status (some j)) =
        Except.ok (safeParseSnapshot j)) := by
  refine ⟨fun err => rfl, ?_, ?_, ?_⟩
  · intro status body hst
    simp [fetchIntegrationSnapshot, hst]
  · intro status hst
    simp [fetchIntegrationSnapshot, hst]
  · intro status j hst
    simp [fetchIntegrationSnapshot, hst]

/-- C1 witness: the amended behaviour at concrete inputs. -/
theorem alfie_c1_witness :
    fetchIntegrationSnapshot (FetchOutcome.response 500 (some (Json.obj []))) = Except.ok none ∧
    fetchIntegrationSnapshot (FetchOutcome.response 200 none) = Except.ok none ∧
    fetchIntegrationSnapshot (FetchOutcome.response 200 (some (Json.obj []))) =
      Except.ok (safeParseSnapshot (Json.obj [])) :=
  ⟨alfie_c1_fetch_error_propagates.2.1 500 (some (Json.obj [])) (by decide),
   alfie_c1_fetch_error_propagates.2.2.1 200 (by decide),
   alfie_c1_fetch_error_propagates.2.2.2 200 (Json.obj []) (by decide)⟩

/-! ## Claim C2 -/

/-- C2: the scheduler set up by `startAlfieIntegrationSyncIfEnabled` does
NOT skip an overlapping tick.  The `setInterval` callback starts a new
`syncAlfieIntegrationsOnce` unconditionally (a tick always increments the
in-flight count), so after two ticks with no intervening finish, two
reconciliation cycles are in flight concurrently — the claimed bound of at
most one in-flight cycle is violated by the code. -/
theorem alfie_c2_overlap_reachable :
    inFlightAfter [SchedulerEvent.tick, SchedulerEvent.tick] = 2 ∧
    (∀ n : Nat, schedulerStep n SchedulerEvent.tick = n + 1) :=
  ⟨rfl, fun _ => rfl⟩

/-! ## Claim C7 -/

/-- C7: `readState` never fails — a missing or unreadable file, a body that
`JSON.parse` rejects, and a parsed value that is not a JSON object (null,
boolean, string, number, or array) all degrade to the empty state. -/
theorem alfie_c7_readState_degrades :
    readState ReadOutcome.readError = emptyState ∧
    readState (ReadOutcome.content none) = emptyState ∧
    (∀ j : Json, jsonIsObj j = false →
      readState (ReadOutcome.content (some j)) = emptyState) := by
  refine ⟨rfl, rfl, ?_⟩
  intro j hj
  cases j with
  | null => rfl
  | bool b => rfl
  | str s => rfl
  | num n => rfl
  | arr xs => rfl
  | obj fields => exact absurd hj (by simp [jsonIsObj])

/-- C7 witness: concrete non-object file contents degrade to the empty
state. -/
theorem alfie_c7_witness :
    jsonIsObj (Json.arr [Json.str "x"]) = false ∧
    readState (ReadOutcome.content (some (Json.arr [Json.str "x"]))) = emptyState ∧
    jsonIsObj Json.null = false ∧
    readState (ReadOutcome.content (some Json.null)) = emptyState :=
  ⟨rfl, alfie_c7_readState_degrades.2.2 (Json.arr [Json.str "x"]) rfl,
   rfl, alfie_c7_readState_degrades.2.2 Json.null rfl⟩

/-! ## Claim C9 -/

theorem parseLiteralTrue_eq_none (o : Option Json)
    (h : o ≠ some (Json.bool true)) : parseLiteralTrue o = none := by
  cases o with
  | none => rfl
  | some j =>
      cases j with
      | bool b =>
          cases b with
          | true => exact absurd rfl h
          | false => rfl
      | null => rfl
      | str s => rfl
      | num n => rfl
      | arr xs => rfl
      | obj fs => rfl

/-- C9: the snapshot schema demands the literal top-level field `ok: true`
and the google integration nested under `integrations`: any response object
without `ok: true`, and any response object without an `integrations` key
(in particular one carrying the google object at top level instead), fails
validation, so the fetcher returns `None` for it. -/
theorem alfie_c9_schema_shape (fields : List (String × Json)) :
    (lookupField fields "ok" ≠ some (Json.bool true) →
      safeParseSnapshot (Json.obj fields) = none) ∧
    (lookupField fields "integrations" = none →
      safeParseSnapshot (Json.obj fields) = none) := by
  constructor
  · intro hok
    have h1 := parseLiteralTrue_eq_none _ hok
    simp only [safeParseSnapshot]
    split
    · rename_i u tid tst ver ints h1' h2' h3' h4' h5'
      rw [h1] at h1'
      exact absurd h1' (by simp)
    · rfl
  · intro hint
    have h5 : parseIntegrations (lookupField fields "integrations") = none := by
      rw [hint]; rfl
    simp only [safeParseSnapshot]
    split
    · rename_i u tid tst ver ints h1' h2' h3' h4' h5'
      rw [h5] at h5'
      exact absurd h5' (by simp)
    · rfl

theorem cycleLoop_eq (env : SyncEnv) (accounts : List GoogleAccount) :
    cycleLoop env accounts =
      processAccounts env.importResult accounts
        ((readState env.readOutcome).google.getD []) false :=
  rfl

/-- A cycle whose stored watermark map is already current for every
processed account performs no tool invocation (regardless of the stored
version). -/
theorem sync_second_no_invocations (env : SyncEnv) (snap : AlfieIntegrationSnapshot)
    (h : ReachesLoop env snap) (r : SyncResult)
    (hr : syncAlfieIntegrationsOnce env = .ok r)
    (hcur : ∀ a ∈ normalizeAccounts snap.integrations.google.accounts,
      mapGet ((readState env.readOutcome).google.getD []) a.email = some a.updatedAtIso) :
    r.toolInvocations = [] := by
  have hupd := reachesLoop_updated_ne h
  rw [sync_reaches_loop_eq h] at hr
  obtain rfl : _ = r := by injection hr
  have hskip : ∀ a ∈ normalizeAccounts snap.integrations.google.accounts,
      skipCond ((readState env.readOutcome).google.getD []) a :=
    fun a ha => (skipCond_iff _ a (hupd a ha)).mpr (hcur a ha)
  rw [runImportCycle_toolInvocations, cycleLoop_eq,
    processAccounts_all_skip env.importResult _ _ false hskip]

/-! ## Claim C6 -/

/-- C6: the import decision for each normalized account is string equality
of its `updatedAtIso` against the stored watermark under its email: a
present-and-equal watermark means the importer is not invoked for that
account; an absent or different watermark means it is invoked.  (Accounts
are keyed by normalized email, so the account list is assumed to carry
pairwise-distinct normalized emails.) -/
theorem alfie_c6_import_decision (env : SyncEnv) (snap : AlfieIntegrationSnapshot)
    (h : ReachesLoop env snap)
    (hnd : ((normalizeAccounts snap.integrations.google.accounts).map (·.email)).Nodup)
    (r : SyncResult) (hr : syncAlfieIntegrationsOnce env = .ok r)
    (a : GoogleAccount) (ha : a ∈ normalizeAccounts snap.integrations.google.accounts) :
    (mapGet ((readState env.readOutcome).google.getD []) a.email = some a.updatedAtIso →
      a ∉ r.toolInvocations) ∧
    (mapGet ((readState env.readOutcome).google.getD []) a.email ≠ some a.updatedAtIso →
      a ∈ r.toolInvocations) := by
  have hupd := reachesLoop_updated_ne h a ha
  rw [sync_reaches_loop_eq h] at hr
  obtain rfl : _ = r := by injection hr
  rw [runImportCycle_toolInvocations, cycleLoop_eq]
  rw [processAccounts_mem_invocations_iff env.importResult _ _ false hnd a ha]
  constructor
  · intro hm
    exact not_not_intro ((skipCond_iff _ a hupd).mpr hm)
  · intro hm
    exact fun hs => hm ((skipCond_iff _ a hupd).mp hs)

/-! ## Claim C3 -/

/-- C3: within one cycle (distinct normalized emails), an account with a
failing import keeps exactly its pre-cycle watermark (present with the same
value, or still absent), while any other account whose `updatedAtIso`
differs from its stored watermark is still invoked and, on success, has its
watermark advanced in that same cycle. -/
theorem alfie_c3_failure_isolated (env : SyncEnv) (snap : AlfieIntegrationSnapshot)
    (h : ReachesLoop env snap)
    (hnd : ((normalizeAccounts snap.integrations.google.accounts).map (·.email)).Nodup)
    (r : SyncResult) (hr : syncAlfieIntegrationsOnce env = .ok r) :
    (∀ a ∈ normalizeAccounts snap.integrations.google.accounts, ∀ e : String,
      env.importResult a = .fail e →
      mapGet (finalGoogle env r) a.email =
        mapGet ((readState env.readOutcome).google.getD []) a.email) ∧
    (∀ b ∈ normalizeAccounts snap.integrations.google.accounts,
      mapGet ((readState env.readOutcome).google.getD []) b.email ≠ some b.updatedAtIso →
      env.importResult b = .ok →
      b ∈ r.toolInvocations ∧ mapGet (finalGoogle env r) b.email = some b.updatedAtIso) := by
  have hupd := reachesLoop_updated_ne h
  rw [sync_reaches_loop_eq h] at hr
  obtain rfl : _ = r := by injection hr
  constructor
  · intro a ha e hfail
    have hnotok : env.importResult a ≠ .ok := by rw [hfail]; simp
    by_cases hw : writeCond env snap (normalizeAccounts snap.integrations.google.accounts)
    · unfold finalGoogle finalState
      rw [runImportCycle_stateWrite_pos _ _ _ hw]
      dsimp only
      rw [cycleLoop_eq]
      exact processAccounts_not_ok_unchanged env.importResult _
        ((readState env.readOutcome).google.getD []) false hnd a ha hnotok
    · unfold finalGoogle finalState
      rw [runImportCycle_stateWrite_neg _ _ _ hw]
  · intro b hb hchanged hok1
    have hns : ¬ skipCond ((readState env.readOutcome).google.getD []) b :=
      fun hs => hchanged ((skipCond_iff _ b (hupd b hb)).mp hs)
    have hadv := processAccounts_ok_advanced env.importResult
      (normalizeAccounts snap.integrations.google.accounts)
      ((readState env.readOutcome).google.getD []) false hnd b hb hok1 hns
    have hwc : writeCond env snap (normalizeAccounts snap.integrations.google.accounts) := by
      left
      rw [cycleLoop_eq]
      exact hadv.2
    constructor
    · rw [runImportCycle_toolInvocations, cycleLoop_eq]
      exact (processAccounts_mem_invocations_iff env.importResult _ _ false hnd b hb).mpr hns
    · unfold finalGoogle finalState
      rw [runImportCycle_stateWrite_pos _ _ _ hwc]
      dsimp only
      rw [cycleLoop_eq]
      exact hadv.1

/-! ## Claim C4 -/

/-- C4 (amended): at the end of a cycle that reached the import loop, with
pairwise-distinct normalized account emails, the state file is written if
and only if the computed watermark map differs from the stored one or the
snapshot's version differs from the stored version; and any written state
carries the snapshot's version, the full updated watermark map, and the
cycle's freshly generated `syncedAtIso`. -/
theorem alfie_c4_write_iff (env : SyncEnv) (snap : AlfieIntegrationSnapshot)
    (h : ReachesLoop env snap)
    (hnd : ((normalizeAccounts snap.integrations.google.accounts).map (·.email)).Nodup)
    (r : SyncResult) (hr : syncAlfieIntegrationsOnce env = .ok r) :
    (r.stateWrite.isSome = true ↔
      ((cycleLoop env (normalizeAccounts snap.integrations.google.accounts)).googleState ≠
          (readState env.readOutcome).google.getD [] ∨
        (readState env.readOutcome).version ≠ some snap.version)) ∧
    (∀ s : AlfieIntegrationsState, r.stateWrite = some s →
      s.version = some snap.version ∧
      s.google = some (cycleLoop env (normalizeAccounts snap.integrations.google.accounts)).googleState ∧
      s.syncedAtIso = some env.nowIso) := by
  have hupd := reachesLoop_updated_ne h
  rw [sync_reaches_loop_eq h] at hr
  obtain rfl : _ = r := by injection hr
  constructor
  · constructor
    · intro hsome
      by_cases hw : writeCond env snap (normalizeAccounts snap.integrations.google.accounts)
      · unfold writeCond at hw
        rcases hw with hch | hv
        · left
          rw [cycleLoop_eq] at hch ⊢
          exact processAccounts_changed_map_ne env.importResult _
            ((readState env.readOutcome).google.getD []) hnd hupd hch
        · right; exact hv
      · rw [runImportCycle_stateWrite_neg _ _ _ hw] at hsome
        exact absurd hsome (by simp)
    · intro hor
      have hw : writeCond env snap (normalizeAccounts snap.integrations.google.accounts) := by
        unfold writeCond
        rcases hor with hmap | hv
        · left
          by_contra hch
          have hchf : (cycleLoop env (normalizeAccounts snap.integrations.google.accounts)).changed = false := by
            simpa using hch
          rw [cycleLoop_eq] at hchf hmap
          exact hmap (processAccounts_changed_false env.importResult _
            ((readState env.readOutcome).google.getD []) false hchf).1
        · right; exact hv
      rw [runImportCycle_stateWrite_pos _ _ _ hw]
      rfl
  · intro s hs
    by_cases hw : writeCond env snap (normalizeAccounts snap.integrations.google.accounts)
    · rw [runImportCycle_stateWrite_pos _ _ _ hw] at hs
      obtain rfl : _ = s := by injection hs
      exact ⟨rfl, rfl, rfl⟩
    · rw [runImportCycle_stateWrite_neg _ _ _ hw] at hs
      cases hs

/-! ## Claim C10 -/

/-- C10: whenever a cycle persists state, it preserves what it did not
compute — every email key of the previously stored watermark map is still
present in the written map, with its value unchanged unless that email
occurs among the cycle's normalized account emails; and the unknown
top-level fields of the prior stored state (everything but `version`,
`google` and `syncedAtIso`) are carried over verbatim by the object
spread. -/
theorem alfie_c10_frame (env : SyncEnv) (snap : AlfieIntegrationSnapshot)
    (h : ReachesLoop env snap)
    (r : SyncResult) (hr : syncAlfieIntegrationsOnce env = .ok r)
    (s : AlfieIntegrationsState) (hs : r.stateWrite = some s) :
    s.extra = (readState env.readOutcome).extra ∧
    ∀ k v : String,
      mapGet ((readState env.readOutcome).google.getD []) k = some v →
      (mapGet (s.google.getD []) k).isSome = true ∧
      (k ∉ (normalizeAccounts snap.integrations.google.accounts).map (·.email) →
        mapGet (s.google.getD []) k = some v) := by
  rw [sync_reaches_loop_eq h] at hr
  obtain rfl : _ = r := by injection hr
  by_cases hw : writeCond env snap (normalizeAccounts snap.integrations.google.accounts)
  · rw [runImportCycle_stateWrite_pos _ _ _ hw] at hs
    obtain rfl : _ = s := by injection hs
    refine ⟨rfl, ?_⟩
    intro k v hv
    dsimp only [Option.getD_some]
    rw [cycleLoop_eq]
    constructor
    · exact processAccounts_presence env.importResult _
        ((readState env.readOutcome).google.getD []) false k (by rw [hv]; rfl)
    · intro hk
      rw [processAccounts_frame env.importResult _
        ((readState env.readOutcome).google.getD []) false k hk]
      exact hv
  · rw [runImportCycle_stateWrite_neg _ _ _ hw] at hs
    cases hs

/-! ## Claim C5 -/

/-- C5 (amended): running the cycle twice in succession against an unchanged
snapshot — with pairwise-distinct normalized emails and every import of the
first run succeeding — performs zero external-tool invocations on the second
run, and the second run performs no state-file write. -/
theorem alfie_c5_idempotent (env env2 : SyncEnv) (snap : AlfieIntegrationSnapshot)
    (h : ReachesLoop env snap) (h2 : ReachesLoop env2 snap)
    (hnd : ((normalizeAccounts snap.integrations.google.accounts).map (·.email)).Nodup)
    (hok : ∀ a ∈ normalizeAccounts snap.integrations.google.accounts,
      env.importResult a = .ok)
    (r1 r2 : SyncResult)
    (hr1 : syncAlfieIntegrationsOnce env = .ok r1)
    (hr2 : syncAlfieIntegrationsOnce env2 = .ok r2)
    (hread : readState env2.readOutcome = finalState env r1) :
    r2.toolInvocations = [] ∧ r2.stateWrite = none := by
  apply sync_second_noop env2 snap h2 r2 hr2
  · intro a ha
    rw [hread]
    exact sync_final_current env snap h hnd hok r1 hr1 a ha
  · rw [hread]
    exact sync_finalState_version env snap h r1 hr1

/-! ## Claim C8 -/

/-- C8: account emails are normalized (trim + lower-case) before any
comparison or import, accounts whose normalized email is empty are dropped,
and across two consecutive runs two accounts whose raw emails differ only by
case or surrounding whitespace share the single normalized watermark key:
the first run stores the watermark under the normalized form, and the second
run, reading that state, performs no duplicate import. -/
theorem alfie_c8_normalization :
    (∀ (accounts : List GoogleAccount) (a : GoogleAccount),
      a ∈ normalizeAccounts accounts →
      a.email ≠ "" ∧ ∃ raw ∈ accounts,
        a = { raw with email := normalizeEmail raw.email }) ∧
    (∀ (env1 env2 : SyncEnv) (snap1 snap2 : AlfieIntegrationSnapshot)
        (raw1 raw2 : GoogleAccount) (r1 r2 : SyncResult),
      snap1.integrations.google.accounts = [raw1] →
      snap2.integrations.google.accounts = [raw2] →
      normalizeEmail raw1.email = normalizeEmail raw2.email →
      raw1.updatedAtIso = raw2.updatedAtIso →
      ReachesLoop env1 snap1 → ReachesLoop env2 snap2 →
      (∀ a : GoogleAccount, env1.importResult a = .ok) →
      syncAlfieIntegrationsOnce env1 = .ok r1 →
      syncAlfieIntegrationsOnce env2 = .ok r2 →
      readState env2.readOutcome = finalState env1 r1 →
      mapGet (finalGoogle env1 r1) (normalizeEmail raw1.email) = some raw1.updatedAtIso ∧
        r2.toolInvocations = []) := by
  constructor
  · intro accounts a ha
    unfold normalizeAccounts at ha
    rw [List.mem_filter] at ha
    obtain ⟨hm, hne⟩ := ha
    obtain ⟨raw, hraw, rfl⟩ := List.mem_map.mp hm
    refine ⟨by simpa using hne, raw, hraw, rfl⟩
  · intro env1 env2 snap1 snap2 raw1 raw2 r1 r2 hs1 hs2 hnorm hts h1 h2 himp hr1 hr2 hread
    have hne1 : normalizeEmail raw1.email ≠ "" := by
      intro hcontra
      apply h1.accountsNonempty
      rw [hs1]
      simp [normalizeAccounts, hcontra]
    have hne2 : normalizeEmail raw2.email ≠ "" := by rw [← hnorm]; exact hne1
    have hacc1 : normalizeAccounts snap1.integrations.google.accounts =
        [{ raw1 with email := normalizeEmail raw1.email }] := by
      rw [hs1]
      simp [normalizeAccounts, hne1]
    have hacc2 : normalizeAccounts snap2.integrations.google.accounts =
        [{ raw2 with email := normalizeEmail raw2.email }] := by
      rw [hs2]
      simp [normalizeAccounts, hne2]
    have hcur1 := sync_final_current env1 snap1 h1
      (by rw [hacc1]; simp)
      (by rw [hacc1]; intro a ha; exact himp a)
      r1 hr1
    have hfirst : mapGet (finalGoogle env1 r1) (normalizeEmail raw1.email) =
        some raw1.updatedAtIso := by
      have := hcur1 { raw1 with email := normalizeEmail raw1.email }
        (by rw [hacc1]; exact List.mem_singleton.mpr rfl)
      exact this
    refine ⟨hfirst, ?_⟩
    apply sync_second_no_invocations env2 snap2 h2 r2 hr2
    intro a ha
    rw [hacc2] at ha
    obtain rfl := List.mem_singleton.mp ha
    rw [hread]
    show mapGet (finalGoogle env1 r1) (normalizeEmail raw2.email) = some raw2.updatedAtIso
    rw [← hnorm, ← hts]
    exact hfirst

/-! ## Gate proofs for the concrete environments -/

theorem reaches_c6 : ReachesLoop c6Env sampleSnap :=
  ⟨rfl, by decide, by decide, rfl, rfl, rfl, by decide, by decide, by decide⟩

theorem reaches_c3 : ReachesLoop c3Env sampleSnap :=
  ⟨rfl, by decide, by decide, rfl, rfl, rfl, by decide, by decide, by decide⟩

theorem reaches_c4w : ReachesLoop c4wEnv sampleSnap :=
  ⟨rfl, by decide, by decide, rfl, rfl, rfl, by decide, by decide, by decide⟩

theorem reaches_c5wA : ReachesLoop c5wAEnv sampleSnap :=
  ⟨rfl, by decide, by decide, rfl, rfl, rfl, by decide, by decide, by decide⟩

theorem reaches_c5wB : ReachesLoop c5wBEnv sampleSnap :=
  ⟨rfl, by decide, by decide, rfl, rfl, rfl, by decide, by decide, by decide⟩

theorem reaches_c10 : ReachesLoop c10Env sampleSnap :=
  ⟨rfl, by decide, by decide, rfl, rfl, rfl, by decide, by decide, by decide⟩

theorem reaches_c8_1 : ReachesLoop c8Env1 c8Snap1 :=
  ⟨rfl, by decide, by decide, rfl, rfl, rfl, by decide, by decide, by decide⟩

theorem reaches_c8_2 : ReachesLoop c8Env2 c8Snap2 :=
  ⟨rfl, by decide, by decide, rfl, rfl, rfl, by decide, by decide, by decide⟩

/-! ## Witnesses and counterexamples -/

/-- C6 witness: with a stored watermark equal to `a@x.com`'s `updatedAtIso`
the importer is not invoked for it, while `b@y.com`, absent from the stored
map, is invoked. -/
theorem alfie_c6_witness :
    normAccountA ∉ (runImportCycle c6Env sampleSnap
      (normalizeAccounts sampleSnap.integrations.google.accounts)).toolInvocations ∧
    normAccountB ∈ (runImportCycle c6Env sampleSnap
      (normalizeAccounts sampleSnap.integrations.google.accounts)).toolInvocations := by
  constructor
  · exact (alfie_c6_import_decision c6Env sampleSnap reaches_c6 (by decide) _
      (sync_reaches_loop_eq reaches_c6) normAccountA (by decide)).1 (by decide)
  · exact (alfie_c6_import_decision c6Env sampleSnap reaches_c6 (by decide) _
      (sync_reaches_loop_eq reaches_c6) normAccountB (by decide)).2 (by decide)

/-- C3 witness: in one concrete cycle, the account whose import fails
(`b@y.com`) keeps its absent watermark, while `a@x.com`, whose
`updatedAtIso` is new, is invoked and advanced in the same cycle. -/
theorem alfie_c3_witness :
    mapGet (finalGoogle c3Env c3Result) "b@y.com" = none ∧
    normAccountA ∈ c3Result.toolInvocations ∧
    mapGet (finalGoogle c3Env c3Result) "a@x.com" = some "T2" := by
  have h := alfie_c3_failure_isolated c3Env sampleSnap reaches_c3 (by decide) c3Result
    (sync_reaches_loop_eq reaches_c3)
  have hfail := h.1 normAccountB (by decide) "boom" rfl
  have hadv := h.2 normAccountA (by decide) (by decide) rfl
  exact ⟨hfail.trans rfl, hadv.1, hadv.2⟩

/-- C4 counterexample: with two snapshot account entries sharing one
normalized email (`e@x.com`, listed at `T2` then `T1`) and a stored
watermark already at `T1` with a matching stored version, the cycle writes
the state file even though the resulting watermark map equals the stored map
and the version is unchanged — refuting the claimed "write iff a watermark
changed or the version differs". -/
theorem alfie_c4_counterexample :
    syncAlfieIntegrationsOnce c4DupEnv = .ok (runImportCycle c4DupEnv dupSnap
      (normalizeAccounts dupSnap.integrations.google.accounts)) ∧
    (runImportCycle c4DupEnv dupSnap
      (normalizeAccounts dupSnap.integrations.google.accounts)).stateWrite.isSome = true ∧
    (cycleLoop c4DupEnv (normalizeAccounts dupSnap.integrations.google.accounts)).googleState =
      (readState c4DupEnv.readOutcome).google.getD [] ∧
    (readState c4DupEnv.readOutcome).version = some dupSnap.version :=
  ⟨rfl, rfl, rfl, rfl⟩

/-- C4 witness: a concrete cycle in which the stored version differs, so the
write happens, via the amended if-and-only-if. -/
theorem alfie_c4_witness :
    (runImportCycle c4wEnv sampleSnap
      (normalizeAccounts sampleSnap.integrations.google.accounts)).stateWrite.isSome = true := by
  have h := alfie_c4_write_iff c4wEnv sampleSnap reaches_c4w (by decide) _
    (sync_reaches_loop_eq reaches_c4w)
  exact h.1.mpr (Or.inr (by decide))

/-- C5 counterexample: a second run in immediate succession (reading exactly
the state the first run wrote, fetching the unchanged snapshot) still
performs external-tool invocations when the first run's imports failed —
refuting the claim's unconditional "zero invocations on the second run". -/
theorem alfie_c5_counterexample :
    syncAlfieIntegrationsOnce c5aEnv = .ok c5r1 ∧
    c5r1.stateWrite = some c5AfterState ∧
    readState c5bEnv.readOutcome = c5AfterState ∧
    syncAlfieIntegrationsOnce c5bEnv = .ok c5r2 ∧
    c5r2.toolInvocations = [normAccountA, normAccountB] :=
  ⟨rfl, rfl, rfl, rfl, rfl⟩

/-- C5 witness: with all imports succeeding and distinct normalized emails,
the second run of the amended idempotence property performs zero tool
invocations and no state write. -/
theorem alfie_c5_witness :
    c5wR2.toolInvocations = [] ∧ c5wR2.stateWrite = none :=
  alfie_c5_idempotent c5wAEnv c5wBEnv sampleSnap reaches_c5wA reaches_c5wB
    (by decide) (by decide) c5wR1 c5wR2
    (sync_reaches_loop_eq reaches_c5wA) (sync_reaches_loop_eq reaches_c5wB) rfl

/-- C8 witness: `"  User@Example.com "` in the first snapshot and
`"user@example.com"` in the next are one account: the first run stores the
watermark under the normalized key, and the second run imports nothing. -/
theorem alfie_c8_witness :
    mapGet (finalGoogle c8Env1 c8R1) "user@example.com" = some "T1" ∧
    c8R2.toolInvocations = [] := by
  have h := alfie_c8_normalization.2 c8Env1 c8Env2 c8Snap1 c8Snap2 c8RawAcct1 c8RawAcct2
    c8R1 c8R2 rfl rfl (by decide) rfl reaches_c8_1 reaches_c8_2 (fun _ => rfl)
    (sync_reaches_loop_eq reaches_c8_1) (sync_reaches_loop_eq reaches_c8_2) rfl
  exact ⟨h.1, h.2⟩

/-- C9 witness: a body with every data-model field valid but the google
object at top level (no `integrations` key) is rejected, as is a fully
nested body that merely lacks `ok: true`. -/
theorem alfie_c9_witness :
    lookupField c9TopLevelGoogleFields "integrations" = none ∧
    safeParseSnapshot (Json.obj c9TopLevelGoogleFields) = none ∧
    safeParseSnapshot (Json.obj c9MissingOkFields) = none := by
  refine ⟨rfl, (alfie_c9_schema_shape c9TopLevelGoogleFields).2 rfl,
    (alfie_c9_schema_shape c9MissingOkFields).1 ?_⟩
  intro hcontra
  rw [show lookupField c9MissingOkFields "ok" = none from rfl] at hcontra
  exact Option.noConfusion hcontra

/-- C10 witness: a concrete persisting cycle carries over the untouched
watermark `old@z.com` and the unknown top-level field `custom`. -/
theorem alfie_c10_witness :
    c10Result.stateWrite = some c10Written ∧
    c10Written.extra = (readState c10Env.readOutcome).extra ∧
    mapGet (c10Written.google.getD []) "old@z.com" = some "T0" := by
  have h := alfie_c10_frame c10Env sampleSnap reaches_c10 c10Result
    (sync_reaches_loop_eq reaches_c10) c10Written rfl
  exact ⟨rfl, h.1, (h.2 "old@z.com" "T0" rfl).2 (by decide)⟩
